import Mathlib

/-!
Verification of the Tic Tac Toe game logic from
`src/tic_tac_toe_frontend/src/App.js`.

The board is the JS array `squares` of 9 cells, each `null`, `'X'` or
`'O'`, embedded as `List (Option Mark)`.  The component state is the pair
of React state hooks `(squares, xIsNext)`, embedded as `GameState`.  The
functions `calculateWinner`, `isDraw`, `handleSquareClick`, `handleReset`
and `statusText` are embedded one-to-one from the source.
-/

namespace TicTacToe

/-- A player's mark: the JS strings `'X'` and `'O'`. -/
inductive Mark where
  | X : Mark
  | O : Mark
deriving DecidableEq, Repr

/-- A cell of the board: `null` or a mark. -/
abbrev Cell := Option Mark

/-- The JS array `squares` of 9 cells. -/
abbrev Board := List Cell

/-- Result of `calculateWinner`: the JS object `{ winner, line }`. -/
structure WinnerInfo where
  winner : Option Mark
  line : List Nat
deriving DecidableEq, Repr

/-- The 8 fixed triples scanned by `calculateWinner` (`lines` in App.js):
rows, then columns, then diagonals, in source order. -/
def lines : List (Nat × Nat × Nat) :=
  [(0, 1, 2), (3, 4, 5), (6, 7, 8),
   (0, 3, 6), (1, 4, 7), (2, 5, 8),
   (0, 4, 8), (2, 4, 6)]

/-- The loop-body condition of `calculateWinner`:
`sq[a] && sq[a] === sq[b] && sq[a] === sq[c]`.  JS indexing past the end
yields `undefined`, embedded as the `none` default of `getD`. -/
def lineWins (sq : Board) (t : Nat × Nat × Nat) : Bool :=
  match sq.getD t.1 none with
  | some m => sq.getD t.2.1 none == some m && sq.getD t.2.2 none == some m
  | none => false

/-- The `for (const [a, b, c] of lines)` loop of `calculateWinner`:
returns `{ winner: sq[a], line: [a, b, c] }` at the first matching
triple, else falls through. -/
def checkLines (sq : Board) : List (Nat × Nat × Nat) → WinnerInfo
  | [] => ⟨none, []⟩
  | t :: rest =>
    if lineWins sq t then ⟨sq.getD t.1 none, [t.1, t.2.1, t.2.2]⟩
    else checkLines sq rest

/-- `calculateWinner` from App.js lines 158-170. -/
def calculateWinner (sq : Board) : WinnerInfo :=
  checkLines sq lines

/-- `isDraw` from App.js lines 20-23:
`squares.every(Boolean) && !winnerInfo.winner`. -/
def isDraw (sq : Board) : Bool :=
  sq.all Option.isSome && (calculateWinner sq).winner == none

/-- The three-variant Verdict the spec's `evaluate` returns. -/
inductive Verdict where
  | Ongoing : Verdict
  | Won : Mark → List Nat → Verdict
  | Draw : Verdict
deriving DecidableEq, Repr

/-- The WinDetector verdict the component derives from a board snapshot:
`Won` from `winnerInfo` when `calculateWinner` finds a winner, else
`Draw` when `isDraw`, else `Ongoing` (the classification used at
App.js lines 45-49 and 69). -/
def evaluate (sq : Board) : Verdict :=
  match (calculateWinner sq).winner with
  | some m => Verdict.Won m (calculateWinner sq).line
  | none => if sq.all Option.isSome then Verdict.Draw else Verdict.Ongoing

/-- The component state: the `squares` and `xIsNext` hooks
(App.js lines 15-16). -/
structure GameState where
  squares : Board
  xIsNext : Bool
deriving DecidableEq, Repr

/-- `currentPlayer` from App.js line 25: `xIsNext ? 'X' : 'O'`. -/
def currentPlayer (s : GameState) : Mark :=
  if s.xIsNext then Mark.X else Mark.O

/-- `handleSquareClick` from App.js lines 28-36: no-op when the cell is
occupied or a winner exists, else copy the board, write the current
player's mark at `index`, and negate `xIsNext`. -/
def handleSquareClick (s : GameState) (index : Nat) : GameState :=
  if (s.squares.getD index none).isSome
      || (calculateWinner s.squares).winner.isSome then s
  else ⟨s.squares.set index (some (currentPlayer s)), !s.xIsNext⟩

/-- `handleReset` from App.js lines 39-43: `Array(9).fill(null)` and
`xIsNext := true`. -/
def handleReset (_ : GameState) : GameState :=
  ⟨List.replicate 9 none, true⟩

/-- The initial hook values (App.js lines 15-16). -/
def initialState : GameState :=
  ⟨List.replicate 9 none, true⟩

/-- Render a mark as its JS string. -/
def markStr : Mark → String
  | Mark.X => "X"
  | Mark.O => "O"

/-- `statusText` from App.js lines 45-49.  The draw message in the source
uses the typographic apostrophe U+2019. -/
def statusText (s : GameState) : String :=
  match (calculateWinner s.squares).winner with
  | some w => "Winner: " ++ markStr w
  | none =>
    if isDraw s.squares then "It’s a draw"
    else "Next player: " ++ markStr (currentPlayer s)

/-- A user-driven operation on the component state: a click on cell
`i` (0-8) or a click on the Reset button. -/
inductive Action where
  | place : Fin 9 → Action
  | reset : Action

/-- One event-loop step: dispatch an action to its handler. -/
def step (s : GameState) : Action → GameState
  | Action.place i => handleSquareClick s i.val
  | Action.reset => handleReset s

/-- Run a sequence of user actions from a state. -/
def run (s : GameState) : List Action → GameState
  | [] => s
  | a :: rest => run (step s a) rest

/-- Number of cells of `sq` holding mark `m`. -/
def countMark (m : Mark) (sq : Board) : Nat :=
  sq.countP (fun c => c == some m)

/-! ### Helper lemmas -/

/-- On a fully occupied board every in-range lookup yields a mark. -/
lemma getD_isSome_of_all {sq : Board} (hall : sq.all Option.isSome = true)
    {i : Nat} (hi : i < sq.length) : (sq.getD i none).isSome = true := by
  induction sq generalizing i with
  | nil => simp at hi
  | cons hd tl ih =>
    rw [List.all_cons, Bool.and_eq_true] at hall
    cases i with
    | zero => simpa using hall.1
    | succ n =>
      rw [List.getD_cons_succ]
      exact ih hall.2 (by simpa using hi)

/-- Writing one cell leaves lookups at every other index unchanged. -/
lemma getD_set_ne {α : Type} (l : List α) (i j : Nat) (a d : α)
    (h : j ≠ i) : (l.set i a).getD j d = l.getD j d := by
  induction l generalizing i j with
  | nil => rfl
  | cons hd tl ih =>
    cases i with
    | zero =>
      cases j with
      | zero => exact absurd rfl h
      | succ m => rfl
    | succ n =>
      cases j with
      | zero => rfl
      | succ m =>
        rw [List.set_cons_succ, List.getD_cons_succ, List.getD_cons_succ]
        exact ih n m (by omega)

/-- Writing an in-range cell makes lookups at that index yield the new
value. -/
lemma getD_set_self {α : Type} (l : List α) (i : Nat) (a d : α)
    (h : i < l.length) : (l.set i a).getD i d = a := by
  induction l generalizing i with
  | nil => simp at h
  | cons hd tl ih =>
    cases i with
    | zero => rfl
    | succ n =>
      rw [List.set_cons_succ, List.getD_cons_succ]
      exact ih n (by simpa using h)

/-- The `for` loop of `calculateWinner` returns the first triple of the
scan list satisfying its condition, and the mark at that triple's first
index. -/
lemma checkLines_eq_find (sq : Board) (L : List (Nat × Nat × Nat)) :
    checkLines sq L =
      match L.find? (lineWins sq) with
      | some t => ⟨sq.getD t.1 none, [t.1, t.2.1, t.2.2]⟩
      | none => ⟨none, []⟩ := by
  induction L with
  | nil => rfl
  | cons t rest ih =>
    by_cases h : lineWins sq t = true
    · rw [List.find?_cons_of_pos rest h]
      simp [checkLines, h]
    · rw [List.find?_cons_of_neg rest (by simpa using h)]
      simp only [checkLines]
      rw [if_neg (by simpa using h)]
      exact ih

/-- When the loop condition of `calculateWinner` holds, all three cells
of the triple hold the same mark. -/
lemma lineWins_eq_some {sq : Board} {t : Nat × Nat × Nat}
    (h : lineWins sq t = true) :
    ∃ m, sq.getD t.1 none = some m ∧ sq.getD t.2.1 none = some m ∧
      sq.getD t.2.2 none = some m := by
  unfold lineWins at h
  cases hg : sq.getD t.1 none with
  | none => rw [hg] at h; exact absurd h (by simp)
  | some m =>
    rw [hg] at h
    simp only [Bool.and_eq_true, beq_iff_eq] at h
    exact ⟨m, rfl, h.1, h.2⟩

/-- When no triple satisfies the loop condition, `calculateWinner`
reports no winner. -/
lemma calculateWinner_winner_none {sq : Board}
    (hno : ∀ t ∈ lines, lineWins sq t = false) :
    calculateWinner sq = ⟨none, []⟩ := by
  have hfind : lines.find? (lineWins sq) = none :=
    List.find?_eq_none.mpr (fun t ht => by simp [hno t ht])
  rw [calculateWinner, checkLines_eq_find, hfind]

/-! ### Sample fixtures used by witnesses -/

/-- A board whose top row is three X marks. -/
def rowWinBoard : Board :=
  [some Mark.X, some Mark.X, some Mark.X,
   none, none, none, none, none, none]

/-- A full board with no three-in-a-row (Scenario C of the spec). -/
def fullDrawBoard : Board :=
  [some Mark.X, some Mark.O, some Mark.X,
   some Mark.O, some Mark.X, some Mark.O,
   some Mark.O, some Mark.X, some Mark.O]

/-- A state after X played cell 0: O to move. -/
def stateAfterX0 : GameState :=
  ⟨[some Mark.X, none, none, none, none, none, none, none, none], false⟩

/-- A finished state: X has won the top row. -/
def wonState : GameState := ⟨rowWinBoard, false⟩

/-- A drawn state: full board, no winner. -/
def drawState : GameState := ⟨fullDrawBoard, true⟩

example : evaluate (List.replicate 9 none) = Verdict.Ongoing := by decide

example :
    evaluate [some Mark.X, some Mark.X, some Mark.X,
              none, none, none, none, none, none]
      = Verdict.Won Mark.X [0, 1, 2] := by decide

example :
    evaluate [some Mark.X, some Mark.O, some Mark.X,
              some Mark.O, some Mark.X, some Mark.O,
              some Mark.O, some Mark.X, some Mark.O]
      = Verdict.Draw := by decide

/-! ### Claims -/

/-- C1: for every 9-cell board containing a winning triple, `evaluate`
returns `Won` carrying the triple's mark and the first matching triple
in the fixed scan order rows, columns, diagonals (`List.find?` over
`lines` is exactly that first-match scan). -/
theorem c1_first_winning_triple (sq : Board) (a b c : Nat) (m : Mark)
    (h9 : sq.length = 9)
    (hfind : lines.find? (lineWins sq) = some (a, b, c))
    (hm : sq.getD a none = some m) :
    evaluate sq = Verdict.Won m [a, b, c] := by
  have hw : calculateWinner sq = ⟨some m, [a, b, c]⟩ := by
    rw [calculateWinner, checkLines_eq_find, hfind]
    show WinnerInfo.mk (sq.getD a none) [a, b, c] = _
    rw [hm]
  simp [evaluate, hw]

/-- Witness for C1 on the top-row X win. -/
theorem c1_witness :
    rowWinBoard.length = 9 ∧
    lines.find? (lineWins rowWinBoard) = some (0, 1, 2) ∧
    rowWinBoard.getD 0 none = some Mark.X ∧
    evaluate rowWinBoard = Verdict.Won Mark.X [0, 1, 2] :=
  ⟨by decide, by decide, by decide,
    c1_first_winning_triple rowWinBoard 0 1 2 Mark.X (by decide) (by decide)
      (by decide)⟩

/-- C2: when the verdict is not `Ongoing`, a click never changes the
state: with a winner the guard fires, and in a draw every cell is
occupied. -/
theorem c2_game_over_noop (s : GameState) (index : Nat)
    (h9 : s.squares.length = 9) (hidx : index < 9)
    (hv : evaluate s.squares ≠ Verdict.Ongoing) :
    handleSquareClick s index = s := by
  cases hw : (calculateWinner s.squares).winner with
  | some m =>
    unfold handleSquareClick
    rw [hw]
    simp
  | none =>
    have hall : s.squares.all Option.isSome = true := by
      cases hx : s.squares.all Option.isSome with
      | true => rfl
      | false => exact absurd (by simp [evaluate, hw, hx]) hv
    have hocc := getD_isSome_of_all hall (h9 ▸ hidx)
    unfold handleSquareClick
    rw [hocc]
    simp

/-- Witness for C2: clicking empty cell 4 of a drawn board is a no-op. -/
theorem c2_witness :
    drawState.squares.length = 9 ∧ 4 < 9 ∧
    evaluate drawState.squares ≠ Verdict.Ongoing ∧
    handleSquareClick drawState 4 = drawState :=
  ⟨by decide, by decide, by decide,
    c2_game_over_noop drawState 4 (by decide) (by decide) (by decide)⟩

/-- C3: a full 9-cell board on which no triple wins evaluates to
`Draw`. -/
theorem c3_full_no_win_draw (sq : Board) (h9 : sq.length = 9)
    (hno : ∀ t ∈ lines, lineWins sq t = false)
    (hfull : sq.all Option.isSome = true) :
    evaluate sq = Verdict.Draw := by
  have hw := calculateWinner_winner_none hno
  simp [evaluate, hw, hfull]

/-- Witness for C3 on the full drawn board. -/
theorem c3_witness :
    fullDrawBoard.length = 9 ∧
    (∀ t ∈ lines, lineWins fullDrawBoard t = false) ∧
    fullDrawBoard.all Option.isSome = true ∧
    evaluate fullDrawBoard = Verdict.Draw :=
  ⟨by decide, by decide, by decide,
    c3_full_no_win_draw fullDrawBoard (by decide) (by decide) (by decide)⟩

/-- C4: a 9-cell board with no winning triple and at least one empty
cell evaluates to `Ongoing`. -/
theorem c4_no_win_not_full_ongoing (sq : Board) (h9 : sq.length = 9)
    (hno : ∀ t ∈ lines, lineWins sq t = false)
    (hempty : none ∈ sq) :
    evaluate sq = Verdict.Ongoing := by
  have hw := calculateWinner_winner_none hno
  have hall : sq.all Option.isSome = false := by
    cases hx : sq.all Option.isSome with
    | false => rfl
    | true =>
      have := List.all_eq_true.mp hx none hempty
      simp at this
  simp [evaluate, hw, hall]

/-- Witness for C4 on the board where only cell 0 is played. -/
theorem c4_witness :
    stateAfterX0.squares.length = 9 ∧
    (∀ t ∈ lines, lineWins stateAfterX0.squares t = false) ∧
    none ∈ stateAfterX0.squares ∧
    evaluate stateAfterX0.squares = Verdict.Ongoing :=
  ⟨by decide, by decide, by decide,
    c4_no_win_not_full_ongoing stateAfterX0.squares (by decide) (by decide)
      (by decide)⟩

/-- C5: clicking an occupied cell never changes the state, whatever the
verdict. -/
theorem c5_occupied_noop (s : GameState) (index : Nat) (hidx : index < 9)
    (hocc : (s.squares.getD index none).isSome = true) :
    handleSquareClick s index = s := by
  unfold handleSquareClick
  rw [hocc]
  simp

/-- Witness for C5: O clicking the cell X already played is a no-op. -/
theorem c5_witness :
    0 < 9 ∧ (stateAfterX0.squares.getD 0 none).isSome = true ∧
    handleSquareClick stateAfterX0 0 = stateAfterX0 :=
  ⟨by decide, by decide, c5_occupied_noop stateAfterX0 0 (by decide) (by decide)⟩

/-- C6: reset always yields the all-empty 9-cell board with X to move,
whatever the prior state. -/
theorem c6_reset (s : GameState) :
    (handleReset s).squares = List.replicate 9 none ∧
    (handleReset s).xIsNext = true :=
  ⟨rfl, rfl⟩

/-- C7: on an ongoing game, clicking an empty cell writes the current
player's mark at exactly that index and negates `xIsNext` once; any
rejected click (occupied cell or existing winner) leaves `xIsNext`
unchanged. -/
theorem c7_place_ongoing (s : GameState) (index : Nat)
    (h9 : s.squares.length = 9) (hidx : index < 9)
    (hv : evaluate s.squares = Verdict.Ongoing)
    (hempty : s.squares.getD index none = none) :
    (handleSquareClick s index).squares
        = s.squares.set index (some (currentPlayer s)) ∧
    (handleSquareClick s index).xIsNext = !s.xIsNext ∧
    ∀ s2 : GameState, ∀ j : Nat,
      ((s2.squares.getD j none).isSome = true
          ∨ (calculateWinner s2.squares).winner.isSome = true) →
      (handleSquareClick s2 j).xIsNext = s2.xIsNext := by
  have hw : (calculateWinner s.squares).winner = none := by
    cases hw : (calculateWinner s.squares).winner with
    | none => rfl
    | some m => simp [evaluate, hw] at hv
  have hclick : handleSquareClick s index
      = ⟨s.squares.set index (some (currentPlayer s)), !s.xIsNext⟩ := by
    unfold handleSquareClick
    rw [hempty, hw]
    simp
  refine ⟨by rw [hclick], by rw [hclick], ?_⟩
  intro s2 j hrej
  unfold handleSquareClick
  cases hrej with
  | inl h => rw [h]; simp
  | inr h => rw [h]; simp

/-- Witness for C7: X clicking cell 4 of the fresh board. -/
theorem c7_witness :
    initialState.squares.length = 9 ∧ 4 < 9 ∧
    evaluate initialState.squares = Verdict.Ongoing ∧
    initialState.squares.getD 4 none = none ∧
    (handleSquareClick initialState 4).squares
        = initialState.squares.set 4 (some (currentPlayer initialState)) ∧
    (handleSquareClick initialState 4).xIsNext = !initialState.xIsNext :=
  ⟨by decide, by decide, by decide, by decide,
    (c7_place_ongoing initialState 4 (by decide) (by decide) (by decide)
      (by decide)).1,
    (c7_place_ongoing initialState 4 (by decide) (by decide) (by decide)
      (by decide)).2.1⟩

/-- C10: a successful click changes no cell other than the clicked
one. -/
theorem c10_frame (s : GameState) (index j : Nat) (hidx : index < 9)
    (hempty : s.squares.getD index none = none)
    (hnowin : (calculateWinner s.squares).winner = none)
    (hj : j ≠ index) :
    (handleSquareClick s index).squares.getD j none
      = s.squares.getD j none := by
  have hclick : handleSquareClick s index
      = ⟨s.squares.set index (some (currentPlayer s)), !s.xIsNext⟩ := by
    unfold handleSquareClick
    rw [hempty, hnowin]
    simp
  rw [hclick]
  exact getD_set_ne _ _ _ _ _ hj

/-- Witness for C10: after X clicks cell 4 of the fresh board, cell 1 is
unchanged. -/
theorem c10_witness :
    4 < 9 ∧ initialState.squares.getD 4 none = none ∧
    (calculateWinner initialState.squares).winner = none ∧ (1 : Nat) ≠ 4 ∧
    (handleSquareClick initialState 4).squares.getD 1 none
      = initialState.squares.getD 1 none :=
  ⟨by decide, by decide, by decide, by decide,
    c10_frame initialState 4 1 (by decide) (by decide) (by decide)
      (by decide)⟩

/-- C8 counterexample: in a drawn state the rendered status is NOT the
ASCII-apostrophe string "It\x27s a draw" claimed by the spec, because the
source template literal uses the typographic apostrophe U+2019. -/
theorem c8_counterexample :
    evaluate drawState.squares = Verdict.Draw ∧
    statusText drawState
      ≠ "It" ++ String.singleton (Char.ofNat 39) ++ "s a draw" := by
  constructor
  · decide
  · decide

/-- C8 amended: the status line is exactly "Next player: {mark}" when
Ongoing, "Winner: {mark}" when Won, and "It’s a draw" (typographic
apostrophe U+2019) when Draw. -/
theorem c8_status_text (s : GameState) :
    statusText s =
      match evaluate s.squares with
      | Verdict.Won m _ => "Winner: " ++ markStr m
      | Verdict.Draw => "It’s a draw"
      | Verdict.Ongoing => "Next player: " ++ markStr (currentPlayer s) := by
  cases hw : (calculateWinner s.squares).winner with
  | some w => simp [statusText, evaluate, hw]
  | none =>
    cases hall : s.squares.all Option.isSome with
    | true => simp [statusText, evaluate, isDraw, hw, hall]
    | false => simp [statusText, evaluate, isDraw, hw, hall]

/-! ### The reachable-state mark-count invariant (C9) -/

/-- Overwriting an in-range cell that held no mark adds to a count
exactly the contribution of the new value. -/
lemma countP_set_of_getD_none {l : List Cell} {i : Nat} (hi : i < l.length)
    (hnone : l.getD i none = none) (v : Cell) (p : Cell → Bool)
    (hp : p none = false) :
    (l.set i v).countP p = l.countP p + (if p v then 1 else 0) := by
  induction l generalizing i with
  | nil => simp at hi
  | cons hd tl ih =>
    cases i with
    | zero =>
      rw [List.getD_cons_zero] at hnone
      subst hnone
      rw [List.set_cons_zero, List.countP_cons, List.countP_cons, hp]
      simp
    | succ n =>
      rw [List.getD_cons_succ] at hnone
      rw [List.set_cons_succ, List.countP_cons, List.countP_cons,
        ih (by simpa using hi) hnone]
      omega

/-- The invariant C9 maintains: a 9-cell board whose X count exceeds its
O count by 0 when X moves next and by 1 when O moves next. -/
def stateOK (s : GameState) : Prop :=
  s.squares.length = 9 ∧
  countMark Mark.X s.squares
    = countMark Mark.O s.squares + (if s.xIsNext then 0 else 1)

/-- Every event-loop step preserves the mark-count invariant. -/
lemma step_preserves (s : GameState) (a : Action) (h : stateOK s) :
    stateOK (step s a) := by
  cases a with
  | reset =>
    show stateOK initialState
    exact ⟨by decide, by decide⟩
  | place i =>
    obtain ⟨hlen, hbal⟩ := h
    show stateOK (handleSquareClick s i.val)
    unfold handleSquareClick
    cases hocc : (s.squares.getD i.val none).isSome with
    | true =>
      simp only [Bool.true_or, if_true]
      exact ⟨hlen, hbal⟩
    | false =>
      cases hw : (calculateWinner s.squares).winner.isSome with
      | true =>
        simp only [Bool.or_true, if_true]
        exact ⟨hlen, hbal⟩
      | false =>
        simp only [Bool.or_self, Bool.false_eq_true, if_false]
        have hempty : s.squares.getD i.val none = none := by
          cases hg : s.squares.getD i.val none with
          | none => rfl
          | some v => rw [hg] at hocc; simp at hocc
        have hi : i.val < s.squares.length := by rw [hlen]; exact i.isLt
        have hX : countMark Mark.X (s.squares.set i.val (some (currentPlayer s)))
            = countMark Mark.X s.squares
              + (if some (currentPlayer s) == some Mark.X then 1 else 0) := by
          unfold countMark
          exact countP_set_of_getD_none hi hempty _ _ rfl
        have hO : countMark Mark.O (s.squares.set i.val (some (currentPlayer s)))
            = countMark Mark.O s.squares
              + (if some (currentPlayer s) == some Mark.O then 1 else 0) := by
          unfold countMark
          exact countP_set_of_getD_none hi hempty _ _ rfl
        constructor
        · show (s.squares.set i.val (some (currentPlayer s))).length = 9
          rw [List.length_set]
          exact hlen
        · show countMark Mark.X (s.squares.set i.val (some (currentPlayer s)))
            = countMark Mark.O (s.squares.set i.val (some (currentPlayer s)))
              + (if (!s.xIsNext) then 0 else 1)
          rw [hX, hO]
          cases hx : s.xIsNext with
          | true =>
            rw [hx] at hbal
            simp at hbal
            simp [currentPlayer, hx]
            omega
          | false =>
            rw [hx] at hbal
            simp at hbal
            simp [currentPlayer, hx]
            omega

/-- Running any action sequence preserves the mark-count invariant. -/
lemma run_preserves (acts : List Action) (s : GameState) (h : stateOK s) :
    stateOK (run s acts) := by
  induction acts generalizing s with
  | nil => exact h
  | cons a rest ih => exact ih (step s a) (step_preserves s a h)

/-- C9: in every state reachable from the fresh board by clicks and
resets, the number of X marks equals the number of O marks when X is
next, and exceeds it by exactly one when O is next. -/
theorem c9_mark_balance (acts : List Action) :
    countMark Mark.X (run initialState acts).squares
      = countMark Mark.O (run initialState acts).squares
        + (if (run initialState acts).xIsNext then 0 else 1) :=
  (run_preserves acts initialState ⟨by decide, by decide⟩).2

end TicTacToe
